import Mathlib

/-
Verification of the financial-analysis pipeline (Budget, Salary, ROI,
Cost Optimization, Financial Planning analyzers).

Modelling conventions:
- Every table is a list of typed rows (the flattened columns of the
  tabular projection are fields of the row structure).
- Currency and ratio arithmetic is exact rational arithmetic (ℚ).
- pandas float division by zero does not raise; it produces inf, -inf or
  NaN.  Where that matters (per-project ROI) the result lives in the
  explicit value type PFloat below, mirroring IEEE special values.
- pandas groupby sorts group keys ascending; series.sort_values with
  ascending = False sorts values descending with NaN placed last.
- Positional indexing (index[0], iloc[0], iloc[-1]) on an empty frame
  raises IndexError; those operations are modelled in Except.
-/

namespace CompanyAnalysis

/-- Insert an element into a list so that it lands before the first element
for which the comparison fails (insertion step of a stable sort). -/
def insertSorted {α : Type} (le : α → α → Bool) (a : α) : List α → List α
  | [] => [a]
  | b :: l => if le a b then a :: b :: l else b :: insertSorted le a l

/-- Stable insertion sort with respect to a boolean comparison. -/
def sortBy {α : Type} (le : α → α → Bool) : List α → List α
  | [] => []
  | a :: l => insertSorted le a (sortBy le l)

/-- Element of a list at an index, with a default for out-of-range
(structural counterpart of List.getD that evaluates by simp). -/
def nthD : List ℚ → ℕ → ℚ → ℚ
  | [], _, d => d
  | x :: _, 0, _ => x
  | _ :: l, n + 1, d => nthD l n d

/-- Lexicographic comparison of character lists by code point, matching
the string ordering Python uses when pandas sorts group keys. -/
def charListLe : List Char → List Char → Bool
  | [], _ => true
  | _ :: _, [] => false
  | a :: as, b :: bs =>
    if a.toNat < b.toNat then true
    else if b.toNat < a.toNat then false
    else charListLe as bs

/-- Code-point ordering on strings. -/
def strLe (a b : String) : Bool := charListLe a.data b.data

/-- Boolean ordering on naturals, used to sort integer group keys. -/
def natLeB (a b : ℕ) : Bool := decide (a ≤ b)

/-- Value of a pandas float computation: a finite rational or one of the
IEEE special values produced by division by zero and by aggregating them. -/
inductive PFloat where
  | fin (q : ℚ)
  | pinf
  | ninf
  | nan
deriving DecidableEq

/-- Division of two rationals with pandas/IEEE semantics: a nonzero
denominator gives a finite quotient, a zero denominator gives a signed
infinity (NaN for 0/0) instead of raising. -/
def pdiv (a b : ℚ) : PFloat :=
  if b ≠ 0 then .fin (a / b)
  else if 0 < a then .pinf
  else if a < 0 then .ninf
  else .nan

/-- Multiplication of a pandas float by a rational scalar. -/
def PFloat.mulQ : PFloat → ℚ → PFloat
  | .fin q, c => .fin (q * c)
  | .pinf, c => if 0 < c then .pinf else if c < 0 then .ninf else .nan
  | .ninf, c => if 0 < c then .ninf else if c < 0 then .pinf else .nan
  | .nan, _ => .nan

/-- Addition of pandas floats (inf + -inf = NaN, NaN propagates). -/
def PFloat.add : PFloat → PFloat → PFloat
  | .nan, _ => .nan
  | _, .nan => .nan
  | .pinf, .ninf => .nan
  | .ninf, .pinf => .nan
  | .pinf, _ => .pinf
  | _, .pinf => .pinf
  | .ninf, _ => .ninf
  | _, .ninf => .ninf
  | .fin a, .fin b => .fin (a + b)

/-- Sum of a list of pandas floats, starting from 0. -/
def psum (values : List PFloat) : PFloat := values.foldl PFloat.add (.fin 0)

/-- Division of a pandas float by a natural count (numpy: inf/n = inf). -/
def PFloat.divNat : PFloat → ℕ → PFloat
  | .fin q, n =>
    if n = 0 then (if 0 < q then .pinf else if q < 0 then .ninf else .nan)
    else .fin (q / (n : ℚ))
  | .pinf, _ => .pinf
  | .ninf, _ => .ninf
  | .nan, _ => .nan

/-- Mean of a list of pandas floats with skipna = True (the pandas
default): NaN entries are dropped; the mean of no remaining entries is
NaN. -/
def pmean (values : List PFloat) : PFloat :=
  let vals := values.filter (fun x => match x with | .nan => false | _ => true)
  match vals with
  | [] => .nan
  | _ :: _ => (psum vals).divNat vals.length

/-- Comparison series-value > scalar as pandas evaluates it: any
comparison involving NaN is false. -/
def PFloat.gtb : PFloat → PFloat → Bool
  | .nan, _ => false
  | _, .nan => false
  | .pinf, .pinf => false
  | .pinf, _ => true
  | _, .pinf => false
  | .ninf, _ => false
  | _, .ninf => true
  | .fin a, .fin b => decide (b < a)

/-- Ordering used by sort_values with ascending = False: larger values
first, NaN last. -/
def PFloat.descLe : PFloat → PFloat → Bool
  | _, .nan => true
  | .nan, _ => false
  | .pinf, _ => true
  | _, .pinf => false
  | _, .ninf => true
  | .ninf, _ => false
  | .fin a, .fin b => decide (b ≤ a)

/-- Row of the departments table: id, name, budget. -/
structure Department where
  id : ℕ
  name : String
  budget : ℚ
deriving DecidableEq

/-- Row of the employees table with the flattened columns the analyzers
read: work_info.department_id, work_info.department_name,
work_info.salary. -/
structure Employee where
  department_id : ℕ
  department_name : String
  salary : ℚ
deriving DecidableEq

/-- Row of the kpi_metrics table with the flattened columns used by the
budget analyzer: department_id, financial_metrics.budget_utilization. -/
structure KpiMetric where
  department_id : ℕ
  budget_utilization : ℚ
deriving DecidableEq

/-- Row of the projects table with the flattened columns the ROI analyzer
reads: status, financials.profit, financials.actual_cost, and the
department_name entries of participating_departments in order. -/
structure Project where
  status : String
  profit : ℚ
  actual_cost : ℚ
  participating_departments : List String
deriving DecidableEq

/-- Row of the equipment table with the flattened columns used by the
cost-optimization and financial-planning analyzers. -/
structure Equipment where
  name : String
  equipment_type : String
  department_name : String
  purchase_cost : ℚ
  maintenance_cost_per_month : ℚ
deriving DecidableEq

/-- Groupby-sum over a string key: pandas groupby(key)[val].sum() keeps
every distinct key sorted ascending and sums the column within each
group. -/
def groupSumBy {α : Type} (key : α → String) (val : α → ℚ) (rows : List α) :
    List (String × ℚ) :=
  (sortBy strLe ((rows.map key).dedup)).map
    (fun k => (k, ((rows.filter (fun r => key r == k)).map val).sum))

/-- Error message for positional access index[0] on an empty index. -/
def indexErrorAxis : String := "IndexError: index 0 is out of bounds for axis 0 with size 0"

/-- Error message for iloc[0] on an empty frame. -/
def indexErrorIloc : String := "IndexError: single positional indexer is out-of-bounds"

/-- Message template LogMessages.ANALYSIS_ERROR from config/messages.py. -/
def analysisErrorMessage (analysis_name error : String) : String :=
  "Error during " ++ analysis_name ++ " analysis: " ++ error

/-- Outcome of one module run as the orchestrator sees it: either the
value returned by execute_analysis, or the exception it let propagate. -/
inductive ModuleOutcome (α : Type) where
  | completed (value : α)
  | raised (error : String)
deriving DecidableEq

/-- True exactly when the module let an exception propagate. -/
def ModuleOutcome.isRaised {α : Type} : ModuleOutcome α → Bool
  | .completed _ => false
  | .raised _ => true

/-- Exception block shared (textually duplicated) by the Budget, Salary,
ROI and Financial Planning analyzers: log the formatted message, then
re-raise the original exception unchanged. -/
def reraiseOnError {α : Type} (body : Except String α) : ModuleOutcome α :=
  match body with
  | .ok v => .completed v
  | .error e => .raised e

/- ===================== ROI analyzer (roi_analyzer.py) ===================== -/

/-- Rows of the projects table with status equal to "completed". -/
def completedProjects (projects : List Project) : List Project :=
  projects.filter (fun p => p.status == "completed")

/-- Column calculated_roi: (financials.profit / financials.actual_cost)
multiplied by 100, with pandas float division semantics (no guard on the
denominator). -/
def calculatedRoi (p : Project) : PFloat :=
  (pdiv p.profit p.actual_cost).mulQ 100

/-- Sum of financials.profit over a set of projects. -/
def totalProfit (projects : List Project) : ℚ := (projects.map (·.profit)).sum

/-- Sum of financials.actual_cost over a set of projects. -/
def totalCost (projects : List Project) : ℚ := (projects.map (·.actual_cost)).sum

/-- General ROI over completed projects:
(total_profit / total_cost) * 100 if total_cost is positive, else 0. -/
def analyzeGeneralRoi (completed : List Project) : ℚ :=
  if 0 < totalCost completed then
    totalProfit completed / totalCost completed * 100
  else 0

/-- Column main_department: the department_name of the first entry of
participating_departments, or the sentinel when the list is empty. -/
def mainDepartment (p : Project) : String :=
  match p.participating_departments with
  | [] => "Не указан"
  | d :: _ => d

/-- Series department_roi: calculated_roi grouped by main_department with
groupby mean (keys sorted ascending, NaN skipped inside each group), then
sort_values descending. -/
def departmentRoi (completed : List Project) : List (String × PFloat) :=
  let keys := sortBy strLe ((completed.map mainDepartment).dedup)
  let grouped := keys.map (fun k =>
    (k, pmean ((completed.filter (fun p => mainDepartment p == k)).map calculatedRoi)))
  sortBy (fun x y => PFloat.descLe x.2 y.2) grouped

/-- Effective and ineffective department: department_roi.index[0] and
department_roi.index[-1], which raise IndexError on an empty series. -/
def analyzeEffectiveRoiPerDepartment (completed : List Project) :
    Except String (String × String × List (String × PFloat)) :=
  match departmentRoi completed with
  | [] => .error indexErrorAxis
  | first :: rest => .ok (first.1, (rest.getLastD first).1, first :: rest)

/-- Result mapping of the ROI analyzer.  The roi_budget_correlation entry
is omitted from the model: Pearson correlation involves square roots, no
claim concerns its value, and the pandas corr/merge calls involved cannot
raise. -/
structure RoiResult where
  general_roi : ℚ
  department_roi : List (String × PFloat)
  effective_roi_department : String
  ineffective_roi_department : String
deriving DecidableEq

/-- Try-block of RoiAnalyzer.execute_analysis: filter completed projects,
compute calculated_roi, general ROI, then the per-department ranking. -/
def roiAnalysisBody (projects : List Project) : Except String RoiResult :=
  let completed := completedProjects projects
  let general_roi := analyzeGeneralRoi completed
  match analyzeEffectiveRoiPerDepartment completed with
  | .error e => .error e
  | .ok (eff, ineff, droi) => .ok ⟨general_roi, droi, eff, ineff⟩

/-- RoiAnalyzer.execute_analysis: the try-block wrapped in the
log-and-re-raise exception handler. -/
def roiExecuteAnalysis (projects : List Project) : ModuleOutcome RoiResult :=
  reraiseOnError (roiAnalysisBody projects)

/- ===================== Budget analyzer (budget_analyzer.py) ===================== -/

/-- Total budget and the name/budget columns of the departments table
(method _analyse_budget). -/
def analyseBudget (departments : List Department) : ℚ × List (String × ℚ) :=
  ((departments.map (·.budget)).sum, departments.map (fun d => (d.name, d.budget)))

/-- Employee head-count per work_info.department_id: groupby(...).size()
keeps every distinct id (sorted ascending) with its row count. -/
def employeeCounts (employees : List Employee) : List (ℕ × ℕ) :=
  (sortBy natLeB ((employees.map (·.department_id)).dedup)).map
    (fun i => (i, (employees.filter (fun e => e.department_id == i)).length))

/-- Row of the merged departments/employee-count frame with the derived
budget_per_employee column. -/
structure MergedDeptRow where
  name : String
  budget : ℚ
  employee_count : ℕ
  budget_per_employee : ℚ
deriving DecidableEq

/-- pd.merge(departments_df, employee_counts, left_on = id, right_on =
work_info.department_id): an inner join that preserves the order of the
left keys, then the budget_per_employee column is added.  Departments
whose id has no employee-count entry produce no row. -/
def mergedDepartmentEmployees (departments : List Department)
    (employees : List Employee) : List MergedDeptRow :=
  departments.filterMap (fun d =>
    match List.lookup d.id (employeeCounts employees) with
    | some c => some ⟨d.name, d.budget, c, d.budget / (c : ℚ)⟩
    | none => none)

/-- Method _analyse_department_budget: sort the merged frame descending
by budget_per_employee and take iloc[0] and iloc[-1], which raise
IndexError when the merged frame is empty. -/
def analyseDepartmentBudget (departments : List Department)
    (employees : List Employee) : Except String (MergedDeptRow × MergedDeptRow) :=
  match sortBy (fun x y => decide (y.budget_per_employee ≤ x.budget_per_employee))
      (mergedDepartmentEmployees departments employees) with
  | [] => .error indexErrorIloc
  | first :: rest => .ok (first, rest.getLastD first)

/-- Method _analyse_budget_utilization: inner merge of departments and
kpi_metrics on department id (one KPI row per department, as the data
model assumes), sorted descending by budget_utilization. -/
def analyseBudgetUtilization (departments : List Department)
    (kpis : List KpiMetric) : List (String × ℚ) :=
  sortBy (fun x y => decide (y.2 ≤ x.2))
    (departments.filterMap (fun d =>
      (kpis.find? (fun k => k.department_id == d.id)).map
        (fun k => (d.name, k.budget_utilization))))

/-- Result mapping of the budget analyzer. -/
structure BudgetResult where
  total_budget : ℚ
  budget_per_department : List (String × ℚ)
  highest_budget_department : MergedDeptRow
  lowest_budget_department : MergedDeptRow
  budget_utilization : List (String × ℚ)
deriving DecidableEq

/-- Try-block of BudgetAnalyzer.execute_analysis. -/
def budgetAnalysisBody (departments : List Department) (employees : List Employee)
    (kpis : List KpiMetric) : Except String BudgetResult :=
  let tb := analyseBudget departments
  match analyseDepartmentBudget departments employees with
  | .error e => .error e
  | .ok (highest, lowest) =>
      .ok ⟨tb.1, tb.2, highest, lowest, analyseBudgetUtilization departments kpis⟩

/-- BudgetAnalyzer.execute_analysis: try-block wrapped in the
log-and-re-raise handler. -/
def budgetExecuteAnalysis (departments : List Department) (employees : List Employee)
    (kpis : List KpiMetric) : ModuleOutcome BudgetResult :=
  reraiseOnError (budgetAnalysisBody departments employees kpis)

/- ===================== Salary analyzer (salary_analyzer.py) ===================== -/

/-- Method _analyze_salary_per_department: work_info.salary summed
grouped by work_info.department_name. -/
def salaryPerDepartment (employees : List Employee) : List (String × ℚ) :=
  groupSumBy (·.department_name) (·.salary) employees

/-- Series.quantile(q) with the default linear interpolation: on the
sorted values x_0 .. x_(n-1), the position h = q * (n - 1) is split into
integer part i and fraction, and the result interpolates between x_i and
x_(i+1). -/
def quantile (values : List ℚ) (q : ℚ) : ℚ :=
  let sorted := sortBy (fun a b => decide (a ≤ b)) values
  let n := sorted.length
  let h : ℚ := q * ((n : ℚ) - 1)
  let i : ℕ := (⌊h⌋).toNat
  let lo := nthD sorted i 0
  let hi := nthD sorted (i + 1) lo
  lo + (h - (i : ℚ)) * (hi - lo)

/-- Local Q1 of _identify_salary_outliers. -/
def salaryQ1 (employees : List Employee) : ℚ :=
  quantile (employees.map (·.salary)) (1/4)

/-- Local Q3 of _identify_salary_outliers. -/
def salaryQ3 (employees : List Employee) : ℚ :=
  quantile (employees.map (·.salary)) (3/4)

/-- Local lower_bound of _identify_salary_outliers: Q1 - 1.5 * IQR. -/
def salaryLowerBound (employees : List Employee) : ℚ :=
  salaryQ1 employees - 3/2 * (salaryQ3 employees - salaryQ1 employees)

/-- Local upper_bound of _identify_salary_outliers: Q3 + 1.5 * IQR. -/
def salaryUpperBound (employees : List Employee) : ℚ :=
  salaryQ3 employees + 3/2 * (salaryQ3 employees - salaryQ1 employees)

/-- Method _identify_salary_outliers: the employees whose salary is at or
below lower_bound or at or above upper_bound; the empty list is the
returned sentinel when the filtered frame is empty. -/
def identifySalaryOutliers (employees : List Employee) : List Employee :=
  employees.filter (fun e =>
    decide (e.salary ≤ salaryLowerBound employees) ||
    decide (salaryUpperBound employees ≤ e.salary))

/-- Result mapping of the salary analyzer.  The salary_distribution entry
(describe()) is omitted from the model: its standard deviation involves a
square root, no claim concerns it, and it cannot raise on the typed
table. -/
structure SalaryResult where
  salary_per_department : List (String × ℚ)
  salary_outliers : List Employee
deriving DecidableEq

/-- Try-block of SalaryAnalyzer.execute_analysis. -/
def salaryAnalysisBody (employees : List Employee) : Except String SalaryResult :=
  .ok ⟨salaryPerDepartment employees, identifySalaryOutliers employees⟩

/-- SalaryAnalyzer.execute_analysis: try-block wrapped in the
log-and-re-raise handler. -/
def salaryExecuteAnalysis (employees : List Employee) : ModuleOutcome SalaryResult :=
  reraiseOnError (salaryAnalysisBody employees)

/- ============ Cost optimization analyzer (cost_optimization_analyzer.py) ============ -/

/-- Result mapping of the cost-optimization analyzer (general_costs,
high_operational_cost_departments, most_expensive_equipment flattened).
The printed maintenance ratio total_annual / total_purchase * 100 is a
float division used only for display; it cannot raise. -/
structure CostResult where
  total_purchase_cost : ℚ
  total_monthly_cost : ℚ
  total_annual_cost : ℚ
  top_spender_department : String
  top_spender_amount : ℚ
  full_rating : List (String × ℚ)
  most_expensive_equipment : Equipment
deriving DecidableEq

/-- Method _calculate_general_costs: purchase and maintenance sums, with
annual = monthly * 12. -/
def calculateGeneralCosts (equipment : List Equipment) : ℚ × ℚ × ℚ :=
  let total_purchase_cost := (equipment.map (·.purchase_cost)).sum
  let total_monthly_cost := (equipment.map (·.maintenance_cost_per_month)).sum
  (total_purchase_cost, total_monthly_cost, total_monthly_cost * 12)

/-- Method _find_high_operational_cost_departments: monthly maintenance
summed per department_name, sorted descending; index[0] raises on an
empty series. -/
def findHighOperationalCostDepartments (equipment : List Equipment) :
    Except String (String × ℚ × List (String × ℚ)) :=
  let department_costs := sortBy (fun x y => decide (y.2 ≤ x.2))
    (groupSumBy (·.department_name) (·.maintenance_cost_per_month) equipment)
  match department_costs with
  | [] => .error indexErrorAxis
  | first :: rest => .ok (first.1, first.2, first :: rest)

/-- Method _find_most_expensive_equipment: rows sorted descending by
monthly maintenance cost, iloc[0]; raises on an empty frame. -/
def findMostExpensiveEquipment (equipment : List Equipment) : Except String Equipment :=
  match sortBy
      (fun x y : Equipment =>
        decide (y.maintenance_cost_per_month ≤ x.maintenance_cost_per_month))
      equipment with
  | [] => .error indexErrorIloc
  | first :: _ => .ok first

/-- Try-block of CostOptimizationAnalyzer.execute_analysis. -/
def costAnalysisBody (equipment : List Equipment) : Except String CostResult :=
  let gc := calculateGeneralCosts equipment
  match findHighOperationalCostDepartments equipment with
  | .error e => .error e
  | .ok (top, amount, rating) =>
      match findMostExpensiveEquipment equipment with
      | .error e => .error e
      | .ok eq0 => .ok ⟨gc.1, gc.2.1, gc.2.2, top, amount, rating, eq0⟩

/-- Return value of CostOptimizationAnalyzer.execute_analysis: either the
normal result mapping or the inline mapping with the single error
entry. -/
inductive CostOutput where
  | results (value : CostResult)
  | errorMapping (error_message : String)
deriving DecidableEq

/-- Exception block of CostOptimizationAnalyzer.execute_analysis (lines
76-79): unlike the other four analyzers it catches the exception and
returns the inline error mapping instead of re-raising. -/
def costExceptBlock (body : Except String CostResult) : CostOutput :=
  match body with
  | .ok v => .results v
  | .error e => .errorMapping (analysisErrorMessage "Cost Optimization" e)

/-- CostOptimizationAnalyzer.execute_analysis: always returns normally
(never lets an exception propagate). -/
def costExecuteAnalysis (equipment : List Equipment) : ModuleOutcome CostOutput :=
  .completed (costExceptBlock (costAnalysisBody equipment))

/- ====== Financial planning analyzer (financial_planning_analyzer.py) ====== -/

/-- Sum of the work_info.salary column. -/
def sumSalaries (employees : List Employee) : ℚ := (employees.map (·.salary)).sum

/-- Sum of the operational_info.maintenance_cost_per_month column. -/
def sumMaintenance (equipment : List Equipment) : ℚ :=
  (equipment.map (·.maintenance_cost_per_month)).sum

/-- Method _calculate_break_even_point: annual fixed costs divided by the
constant margin ratio 0.30, with the defensive 0 fallback for a
non-positive margin ratio. -/
def calculateBreakEvenPoint (employees : List Employee) (equipment : List Equipment) : ℚ :=
  let fixed_costs_annual := (sumSalaries employees + sumMaintenance equipment) * 12
  let margin_ratio : ℚ := 3/10
  if 0 < margin_ratio then fixed_costs_annual / margin_ratio else 0

/-- Method _find_high_effective_roi_department, translated as written:
it computes the mean of the department-ROI series and the filtered
series high_roi_departments, but the return statement returns the whole
department_roi series. -/
def findHighEffectiveRoiDepartment (department_roi : List (String × PFloat)) :
    List (String × PFloat) :=
  let average_roi := pmean (department_roi.map (·.2))
  let high_roi_departments := department_roi.filter (fun p => p.2.gtb average_roi)
  department_roi

/-- Specification reading of the high_effective_roi_department entry: the
departments whose ROI strictly exceeds the mean department ROI. -/
def highEffectiveRoiDepartmentSpec (department_roi : List (String × PFloat)) :
    List (String × PFloat) :=
  department_roi.filter (fun p => p.2.gtb (pmean (department_roi.map (·.2))))

/-- Result mapping of the financial-planning analyzer (break_even_point
is stored under a one-entry mapping in the source; the value is modelled
directly). -/
structure PlanningResult where
  break_even_point : ℚ
  high_effective_roi_department : List (String × PFloat)
deriving DecidableEq

/-- Try-block of CompanyOverviewAnalyzer.execute_analysis.  The print
statements read the total sums and iterate the sorted series; none of
them can raise on the typed tables. -/
def planningAnalysisBody (employees : List Employee) (equipment : List Equipment)
    (roi_results : RoiResult) : Except String PlanningResult :=
  .ok ⟨calculateBreakEvenPoint employees equipment,
       findHighEffectiveRoiDepartment roi_results.department_roi⟩

/-- CompanyOverviewAnalyzer.execute_analysis: try-block wrapped in the
log-and-re-raise handler. -/
def planningExecuteAnalysis (employees : List Employee) (equipment : List Equipment)
    (roi_results : RoiResult) : ModuleOutcome PlanningResult :=
  reraiseOnError (planningAnalysisBody employees equipment roi_results)

/-- Number of employee rows whose work_info.department_id equals i. -/
def empCount (employees : List Employee) (i : ℕ) : ℕ :=
  (employees.filter (fun e => e.department_id == i)).length

/- ===================== Helper lemmas ===================== -/

theorem mem_insertSorted {α : Type} (le : α → α → Bool) (x : α) (l : List α) (a : α) :
    a ∈ insertSorted le x l ↔ a = x ∨ a ∈ l := by
  induction l with
  | nil => simp [insertSorted]
  | cons b t ih =>
    by_cases h : le x b
    · simp [insertSorted, h]
    · simp [insertSorted, h, ih]
      tauto

theorem mem_sortBy {α : Type} (le : α → α → Bool) (l : List α) (a : α) :
    a ∈ sortBy le l ↔ a ∈ l := by
  induction l with
  | nil => simp [sortBy]
  | cons b t ih => simp [sortBy, mem_insertSorted, ih]

theorem length_insertSorted {α : Type} (le : α → α → Bool) (x : α) (l : List α) :
    (insertSorted le x l).length = l.length + 1 := by
  induction l with
  | nil => simp [insertSorted]
  | cons b t ih => by_cases h : le x b <;> simp [insertSorted, h, ih]

theorem length_sortBy {α : Type} (le : α → α → Bool) (l : List α) :
    (sortBy le l).length = l.length := by
  induction l with
  | nil => simp [sortBy]
  | cons b t ih => simp [sortBy, length_insertSorted, ih]

theorem sortBy_eq_nil_iff {α : Type} (le : α → α → Bool) (l : List α) :
    sortBy le l = [] ↔ l = [] := by
  rw [← List.length_eq_zero, length_sortBy, List.length_eq_zero]

theorem nthD_of_all {l : List ℚ} {s : ℚ} (h : ∀ x ∈ l, x = s) (i : ℕ) :
    nthD l i s = s := by
  induction l generalizing i with
  | nil => simp [nthD]
  | cons b t ih =>
    cases i with
    | zero => simpa [nthD] using h b (by simp)
    | succ j => exact ih (fun x hx => h x (by simp [hx])) j

theorem nthD_of_lt {l : List ℚ} {s d : ℚ} (h : ∀ x ∈ l, x = s) (i : ℕ)
    (hi : i < l.length) : nthD l i d = s := by
  induction l generalizing i with
  | nil => simp at hi
  | cons b t ih =>
    cases i with
    | zero => simpa [nthD] using h b (by simp)
    | succ j => exact ih (fun x hx => h x (by simp [hx])) j (by simpa using hi)

theorem quantile_const (values : List ℚ) (s q : ℚ) (hne : values ≠ [])
    (hall : ∀ x ∈ values, x = s) (h1 : q ≤ 1) :
    quantile values q = s := by
  have hmem : ∀ x ∈ sortBy (fun a b => decide (a ≤ b)) values, x = s :=
    fun x hx => hall x ((mem_sortBy _ _ _).1 hx)
  have hlen : (sortBy (fun a b => decide (a ≤ b)) values).length = values.length :=
    length_sortBy _ _
  have hpos : 0 < values.length := List.length_pos.mpr hne
  have hn1 : 1 ≤ (sortBy (fun a b => decide (a ≤ b)) values).length := by omega
  set L := sortBy (fun a b => decide (a ≤ b)) values with hL
  set n := L.length with hn
  have hnn : (0:ℚ) ≤ (n : ℚ) - 1 := by
    have : (1:ℚ) ≤ (n : ℚ) := by exact_mod_cast hn1
    linarith
  have hhle : q * ((n:ℚ) - 1) ≤ (n:ℚ) - 1 := by nlinarith
  have hfloor_le : ⌊q * ((n:ℚ) - 1)⌋ ≤ (n:ℤ) - 1 := by
    have hcast : ((n:ℚ) - 1) = (((n:ℤ) - 1 : ℤ) : ℚ) := by push_cast; ring
    calc ⌊q * ((n:ℚ) - 1)⌋ ≤ ⌊(n:ℚ) - 1⌋ := Int.floor_le_floor hhle
    _ = (n:ℤ) - 1 := by rw [hcast, Int.floor_intCast]
  have hi_lt : (⌊q * ((n:ℚ) - 1)⌋).toNat < n := by
    have h2 : (⌊q * ((n:ℚ) - 1)⌋).toNat ≤ ((n:ℤ) - 1).toNat := Int.toNat_le_toNat hfloor_le
    omega
  have hlo : nthD L (⌊q * ((n:ℚ) - 1)⌋).toNat 0 = s := nthD_of_lt hmem _ hi_lt
  have hhi : nthD L ((⌊q * ((n:ℚ) - 1)⌋).toNat + 1) s = s := nthD_of_all hmem _
  simp only [quantile, ← hL, ← hn]
  rw [hlo, hhi]
  ring

theorem lookup_map_pair {β : Type} (f : ℕ → β) (ks : List ℕ) (i : ℕ) :
    List.lookup i (ks.map (fun j => (j, f j))) = if i ∈ ks then some (f i) else none := by
  induction ks with
  | nil => simp [List.lookup]
  | cons k t ih =>
    by_cases h : i = k
    · subst h
      simp [List.lookup]
    · have hb : (i == k) = false := by simpa using h
      simp [List.lookup, hb, h, ih]

theorem mem_deptIds_iff (employees : List Employee) (i : ℕ) :
    (i ∈ sortBy natLeB ((employees.map (·.department_id)).dedup)) ↔
      employees.any (fun e => e.department_id == i) = true := by
  rw [mem_sortBy, List.mem_dedup, List.any_eq_true]
  simp only [List.mem_map, beq_iff_eq]

theorem lookup_employeeCounts (employees : List Employee) (i : ℕ) :
    List.lookup i (employeeCounts employees)
      = if employees.any (fun e => e.department_id == i)
        then some (empCount employees i)
        else none := by
  unfold employeeCounts
  rw [lookup_map_pair]
  by_cases h : employees.any (fun e => e.department_id == i)
  · rw [if_pos ((mem_deptIds_iff employees i).mpr h), if_pos h]
    rfl
  · rw [if_neg (fun hmem => h ((mem_deptIds_iff employees i).mp hmem)), if_neg h]

theorem filterMap_if_option {α β : Type} (p : α → Bool) (g : α → β) (l : List α)
    (F : α → Option β) (hF : ∀ a, F a = if p a then some (g a) else none) :
    l.filterMap F = (l.filter p).map g := by
  induction l with
  | nil => simp
  | cons a t ih =>
    rw [List.filterMap_cons, hF a, List.filter_cons]
    by_cases h : p a
    · simp [h, ih]
    · simp [h, ih]

theorem mergedDepartmentEmployees_eq (departments : List Department)
    (employees : List Employee) :
    mergedDepartmentEmployees departments employees
      = (departments.filter (fun d => employees.any (fun e => e.department_id == d.id))).map
          (fun d => ⟨d.name, d.budget, empCount employees d.id,
                     d.budget / (empCount employees d.id : ℚ)⟩) := by
  unfold mergedDepartmentEmployees
  apply filterMap_if_option
  intro d
  rw [lookup_employeeCounts]
  by_cases h : employees.any (fun e => e.department_id == d.id) <;> simp [h]

theorem departmentRoi_ne_nil {completed : List Project} (h : completed ≠ []) :
    departmentRoi completed ≠ [] := by
  obtain ⟨p, hp⟩ := List.exists_mem_of_ne_nil completed h
  have h3 : mainDepartment p ∈ sortBy strLe ((completed.map mainDepartment).dedup) :=
    (mem_sortBy _ _ _).mpr (List.mem_dedup.mpr (List.mem_map_of_mem _ hp))
  have h4 : (mainDepartment p,
      pmean ((completed.filter (fun q => mainDepartment q == mainDepartment p)).map
        calculatedRoi)) ∈
      (sortBy strLe ((completed.map mainDepartment).dedup)).map (fun k =>
        (k, pmean ((completed.filter (fun p => mainDepartment p == k)).map calculatedRoi))) :=
    List.mem_map_of_mem _ h3
  simp only [departmentRoi]
  exact List.ne_nil_of_mem ((mem_sortBy _ _ _).mpr h4)

theorem map_sum_const {α : Type} (l : List α) (f : α → ℚ) (c : ℚ)
    (h : ∀ p ∈ l, f p = c) : (l.map f).sum = c * l.length := by
  induction l with
  | nil => simp
  | cons a t ih =>
    have := ih (fun p hp => h p (by simp [hp]))
    simp only [List.map_cons, List.sum_cons, this, h a (by simp), List.length_cons]
    push_cast
    ring

/- ===================== Claim theorems ===================== -/

/-- C1 (code bug evaluation): on the department-ROI series with entries
A at 20 and B at 10, _find_high_effective_roi_department returns the
whole series unchanged, while the specified high-effective set (ROI
strictly above the mean, here 15) is the single entry A. -/
theorem claim_C1_code_eval :
    findHighEffectiveRoiDepartment [("A", PFloat.fin 20), ("B", PFloat.fin 10)]
        = [("A", PFloat.fin 20), ("B", PFloat.fin 10)]
    ∧ highEffectiveRoiDepartmentSpec [("A", PFloat.fin 20), ("B", PFloat.fin 10)]
        = [("A", PFloat.fin 20)] := by
  constructor
  · rfl
  · norm_num [highEffectiveRoiDepartmentSpec, pmean, psum, PFloat.add, PFloat.divNat,
      PFloat.gtb, List.filter, List.foldl]

/-- C4 counterexample: a completed project with actual_cost 0 gets
calculated_roi equal to positive infinity, not the fallback 0. -/
theorem claim_C4_counterexample :
    calculatedRoi ⟨"completed", 100, 0, ["Sales"]⟩ ≠ PFloat.fin 0
    ∧ calculatedRoi ⟨"completed", 100, 0, ["Sales"]⟩ = PFloat.pinf := by
  have h : calculatedRoi ⟨"completed", 100, 0, ["Sales"]⟩ = PFloat.pinf := by
    norm_num [calculatedRoi, pdiv, PFloat.mulQ]
  exact ⟨by rw [h]; exact fun hc => PFloat.noConfusion hc, h⟩

/-- C4 amended: the per-project ROI is computed with no fallback.  When
actual_cost = 0 it is the IEEE special value (inf for positive profit,
-inf for negative profit, NaN for 0/0) and no exception is raised; when
actual_cost is nonzero (including negative) it is the plain quotient
profit / actual_cost * 100. -/
theorem claim_C4_amended (p : Project) :
    (p.actual_cost = 0 →
      calculatedRoi p = (if 0 < p.profit then PFloat.pinf
                         else if p.profit < 0 then PFloat.ninf else PFloat.nan))
    ∧ (p.actual_cost ≠ 0 →
      calculatedRoi p = PFloat.fin (p.profit / p.actual_cost * 100)) := by
  constructor
  · intro h0
    rw [calculatedRoi, pdiv, h0]
    have h100 : (0:ℚ) < 100 := by norm_num
    by_cases hp : 0 < p.profit
    · simp [hp, PFloat.mulQ, h100]
    · by_cases hn : p.profit < 0
      · simp [hp, hn, PFloat.mulQ, h100]
      · simp [hp, hn, PFloat.mulQ]
  · intro h0
    rw [calculatedRoi, pdiv]
    simp [h0, PFloat.mulQ]

/-- C4 witness: the amended statement applied to a concrete completed
project with profit 100 and actual_cost 0. -/
theorem claim_C4_witness :
    calculatedRoi ⟨"completed", 100, 0, []⟩ = PFloat.pinf := by
  have h := (claim_C4_amended ⟨"completed", 100, 0, []⟩).1 rfl
  norm_num at h
  exact h

/-- C5: the Budget, Salary, ROI and Financial Planning analyzers re-raise
the exception from their try-block unchanged, while the Cost Optimization
analyzer catches it and returns the inline error mapping; consequently
costExecuteAnalysis never lets an exception propagate.  The two concrete
conjuncts run the ROI module on a table with no completed project (it
raises) and the cost module on an empty equipment table (it completes
with the error mapping). -/
theorem claim_C5 :
    (∀ e : String, @reraiseOnError BudgetResult (.error e) = .raised e)
    ∧ (∀ e : String, @reraiseOnError SalaryResult (.error e) = .raised e)
    ∧ (∀ e : String, @reraiseOnError RoiResult (.error e) = .raised e)
    ∧ (∀ e : String, @reraiseOnError PlanningResult (.error e) = .raised e)
    ∧ (∀ e : String, costExceptBlock (.error e)
        = CostOutput.errorMapping (analysisErrorMessage "Cost Optimization" e))
    ∧ (∀ equipment : List Equipment, (costExecuteAnalysis equipment).isRaised = false)
    ∧ roiExecuteAnalysis [⟨"active", 100, 200, ["Sales"]⟩]
        = ModuleOutcome.raised indexErrorAxis
    ∧ costExecuteAnalysis []
        = ModuleOutcome.completed (CostOutput.errorMapping
            (analysisErrorMessage "Cost Optimization" indexErrorAxis)) := by
  refine ⟨fun e => rfl, fun e => rfl, fun e => rfl, fun e => rfl, fun e => rfl,
    fun equipment => rfl, ?_, ?_⟩
  · norm_num [roiExecuteAnalysis, reraiseOnError, roiAnalysisBody, completedProjects,
      analyzeEffectiveRoiPerDepartment, departmentRoi, sortBy, mainDepartment,
      analyzeGeneralRoi, totalCost, totalProfit, List.filter]
  · rfl

/-- C8: break_even_point is always annual fixed costs divided by the
constant margin ratio 3/10 (the 0 fallback branch is dead because the
constant is positive), and on salaries summing to 100000 with monthly
maintenance 20000 it equals 4800000. -/
theorem claim_C8 :
    (∀ (employees : List Employee) (equipment : List Equipment),
        calculateBreakEvenPoint employees equipment
          = (sumSalaries employees + sumMaintenance equipment) * 12 / (3/10))
    ∧ calculateBreakEvenPoint [⟨1, "Dev", 60000⟩, ⟨2, "Ops", 40000⟩]
        [⟨"Server", "hardware", "Dev", 500000, 20000⟩] = 4800000 := by
  constructor
  · intro es eqp
    simp only [calculateBreakEvenPoint]
    norm_num
  · norm_num [calculateBreakEvenPoint, sumSalaries, sumMaintenance]

/-- C9: for a non-empty departments table the budget values returned per
department by _analyse_budget sum exactly to the returned total budget. -/
theorem claim_C9 (departments : List Department) (hne : departments ≠ []) :
    ((analyseBudget departments).2.map Prod.snd).sum = (analyseBudget departments).1 := by
  simp only [analyseBudget, List.map_map]
  rfl

/-- C9 witness: the identity at a concrete two-department table. -/
theorem claim_C9_witness :
    ((analyseBudget [⟨1, "A", 100⟩, ⟨2, "B", 50⟩]).2.map Prod.snd).sum
      = (analyseBudget [⟨1, "A", 100⟩, ⟨2, "B", 50⟩]).1 :=
  claim_C9 [⟨1, "A", 100⟩, ⟨2, "B", 50⟩] (by decide)

/-- C2 counterexample: with departments A (id 1) and B (id 2) and a
single employee belonging to department 1, the merged budget-per-employee
frame contains only A: department B, which has zero matching employees,
is dropped by the inner merge instead of being kept with an undefined
ratio. -/
theorem claim_C2_counterexample :
    (mergedDepartmentEmployees [⟨1, "A", 100⟩, ⟨2, "B", 50⟩] [⟨1, "A", 10⟩]).map
        MergedDeptRow.name = ["A"] := by
  decide

/-- C2 amended: the budget-per-employee computation keeps exactly the
departments with at least one matching employee (in department-table
order); zero-employee departments are silently dropped by the inner
merge, so every surviving row has a positive employee count and no
undefined ratio arises. -/
theorem claim_C2_amended (departments : List Department) (employees : List Employee) :
    ((mergedDepartmentEmployees departments employees).map MergedDeptRow.name
      = (departments.filter (fun d =>
            employees.any (fun e => e.department_id == d.id))).map Department.name)
    ∧ (mergedDepartmentEmployees departments employees).all
        (fun r => decide (0 < r.employee_count)) = true := by
  constructor
  · rw [mergedDepartmentEmployees_eq, List.map_map]
    rfl
  · rw [mergedDepartmentEmployees_eq, List.all_eq_true]
    intro x hx
    rw [List.mem_map] at hx
    obtain ⟨d, hd, rfl⟩ := hx
    rw [List.mem_filter] at hd
    obtain ⟨-, hany⟩ := hd
    rw [List.any_eq_true] at hany
    obtain ⟨e, he, heq⟩ := hany
    have hmem : e ∈ employees.filter (fun e2 => e2.department_id == d.id) :=
      List.mem_filter.mpr ⟨he, heq⟩
    have hpos : 0 < empCount employees d.id :=
      List.length_pos.mpr (List.ne_nil_of_mem hmem)
    simpa using hpos

/-- C3 counterexample: on a project table whose only project is not
completed, RoiAnalyzer.execute_analysis raises IndexError (from
department_roi.index[0] on the empty grouped series) instead of
completing with general_roi 0. -/
theorem claim_C3_counterexample :
    roiExecuteAnalysis [⟨"active", 300, 0, ["Sales"]⟩]
      = ModuleOutcome.raised indexErrorAxis := by
  norm_num [roiExecuteAnalysis, reraiseOnError, roiAnalysisBody, completedProjects,
    analyzeEffectiveRoiPerDepartment, departmentRoi, sortBy, mainDepartment,
    analyzeGeneralRoi, totalCost, totalProfit, List.filter]

/-- C3 amended: whenever at least one project is completed,
execute_analysis completes without raising, and its general_roi is 0
whenever the total actual cost of the completed projects is non-positive;
with zero completed projects the module raises IndexError instead. -/
theorem claim_C3_amended (projects : List Project)
    (hne : completedProjects projects ≠ []) :
    ∃ r, roiExecuteAnalysis projects = ModuleOutcome.completed r
      ∧ (totalCost (completedProjects projects) ≤ 0 → r.general_roi = 0) := by
  cases hd : departmentRoi (completedProjects projects) with
  | nil => exact absurd hd (departmentRoi_ne_nil hne)
  | cons first rest =>
    refine ⟨⟨analyzeGeneralRoi (completedProjects projects), first :: rest,
      first.1, (rest.getLastD first).1⟩, ?_, ?_⟩
    · simp [roiExecuteAnalysis, reraiseOnError, roiAnalysisBody,
        analyzeEffectiveRoiPerDepartment, hd]
    · intro hle
      show analyzeGeneralRoi (completedProjects projects) = 0
      rw [analyzeGeneralRoi, if_neg (not_lt.mpr hle)]

/-- C3 witness: the amended statement applied to a table with one
completed project of actual_cost 0. -/
theorem claim_C3_witness :
    ∃ r, roiExecuteAnalysis [⟨"completed", 100, 0, ["Sales"]⟩]
        = ModuleOutcome.completed r
      ∧ (totalCost (completedProjects [⟨"completed", 100, 0, ["Sales"]⟩]) ≤ 0 →
          r.general_roi = 0) :=
  claim_C3_amended [⟨"completed", 100, 0, ["Sales"]⟩] (by decide)

/-- C6: general ROI is the cost-weighted quotient
total profit / total cost * 100 over the completed projects whenever the
total cost is positive, and on a table whose completed projects all have
profit 100 and actual_cost 200 it equals 50. -/
theorem claim_C6 (projects : List Project) :
    (0 < totalCost (completedProjects projects) →
      analyzeGeneralRoi (completedProjects projects)
        = totalProfit (completedProjects projects)
            / totalCost (completedProjects projects) * 100)
    ∧ ((∀ p ∈ completedProjects projects, p.profit = 100 ∧ p.actual_cost = 200) →
        completedProjects projects ≠ [] →
        analyzeGeneralRoi (completedProjects projects) = 50) := by
  constructor
  · intro h
    rw [analyzeGeneralRoi, if_pos h]
  · intro hall hne
    have hp : totalProfit (completedProjects projects)
        = 100 * (completedProjects projects).length :=
      map_sum_const _ _ _ (fun p hp => (hall p hp).1)
    have hc : totalCost (completedProjects projects)
        = 200 * (completedProjects projects).length :=
      map_sum_const _ _ _ (fun p hp => (hall p hp).2)
    have hlen : 0 < (completedProjects projects).length := List.length_pos.mpr hne
    have hqlen : (0:ℚ) < ((completedProjects projects).length : ℚ) := by exact_mod_cast hlen
    have hcpos : 0 < totalCost (completedProjects projects) := by
      rw [hc]; linarith
    rw [analyzeGeneralRoi, if_pos hcpos, hp, hc]
    have hne0 : ((completedProjects projects).length : ℚ) ≠ 0 := ne_of_gt hqlen
    field_simp
    ring

/-- C6 witness: the uniform-profit case applied to a table with a single
completed project with profit 100 and actual_cost 200. -/
theorem claim_C6_witness :
    analyzeGeneralRoi (completedProjects [⟨"completed", 100, 200, ["Sales"]⟩]) = 50 :=
  (claim_C6 [⟨"completed", 100, 200, ["Sales"]⟩]).2 (by decide) (by decide)

/-- C7: the outlier detector flags exactly the employees whose salary is
at or below Q1 - 1.5 IQR or at or above Q3 + 1.5 IQR, returns the empty
list (a sentinel, not an error) when no salary meets either bound, and on
the salary set [10, 12, 11, 13, 1000] flags exactly the employee with
salary 1000. -/
theorem claim_C7 :
    (∀ (employees : List Employee) (e : Employee),
        e ∈ identifySalaryOutliers employees ↔
          e ∈ employees ∧ (e.salary ≤ salaryLowerBound employees
            ∨ salaryUpperBound employees ≤ e.salary))
    ∧ identifySalaryOutliers
        [⟨1, "D1", 10⟩, ⟨2, "D2", 12⟩, ⟨3, "D3", 11⟩, ⟨4, "D4", 13⟩, ⟨5, "D5", 1000⟩]
        = [⟨5, "D5", 1000⟩]
    ∧ identifySalaryOutliers
        [⟨1, "D1", 10⟩, ⟨2, "D2", 11⟩, ⟨3, "D3", 12⟩, ⟨4, "D4", 13⟩, ⟨5, "D5", 14⟩]
        = [] := by
  refine ⟨?_, ?_, ?_⟩
  · intro employees e
    rw [identifySalaryOutliers, List.mem_filter]
    simp
  · have h1 : salaryQ1
        [⟨1, "D1", 10⟩, ⟨2, "D2", 12⟩, ⟨3, "D3", 11⟩, ⟨4, "D4", 13⟩, ⟨5, "D5", 1000⟩]
        = 11 := by
      norm_num [salaryQ1, quantile, sortBy, insertSorted, nthD]
    have h3 : salaryQ3
        [⟨1, "D1", 10⟩, ⟨2, "D2", 12⟩, ⟨3, "D3", 11⟩, ⟨4, "D4", 13⟩, ⟨5, "D5", 1000⟩]
        = 13 := by
      norm_num [salaryQ3, quantile, sortBy, insertSorted, nthD]
      simp
    norm_num [identifySalaryOutliers, salaryLowerBound, salaryUpperBound, h1, h3,
      List.filter]
  · have h1 : salaryQ1
        [⟨1, "D1", 10⟩, ⟨2, "D2", 11⟩, ⟨3, "D3", 12⟩, ⟨4, "D4", 13⟩, ⟨5, "D5", 14⟩]
        = 11 := by
      norm_num [salaryQ1, quantile, sortBy, insertSorted, nthD]
    have h3 : salaryQ3
        [⟨1, "D1", 10⟩, ⟨2, "D2", 11⟩, ⟨3, "D3", 12⟩, ⟨4, "D4", 13⟩, ⟨5, "D5", 14⟩]
        = 13 := by
      norm_num [salaryQ3, quantile, sortBy, insertSorted, nthD]
      simp
    norm_num [identifySalaryOutliers, salaryLowerBound, salaryUpperBound, h1, h3,
      List.filter]

/-- C10: on a non-empty employee table where every salary is the same
value, Q1 and Q3 both equal that value, the IQR is 0, both inclusive
bounds collapse onto the common salary, and every employee is flagged as
an outlier (the result is the whole table, not the empty sentinel). -/
theorem claim_C10 (employees : List Employee) (s : ℚ)
    (hne : employees ≠ []) (hall : ∀ e ∈ employees, e.salary = s) :
    identifySalaryOutliers employees = employees := by
  have hmapne : employees.map (·.salary) ≠ [] := by simpa using hne
  have hallmap : ∀ x ∈ employees.map (·.salary), x = s := by
    intro x hx
    rw [List.mem_map] at hx
    obtain ⟨e, he, rfl⟩ := hx
    exact hall e he
  have hq1 : salaryQ1 employees = s :=
    quantile_const _ s _ hmapne hallmap (by norm_num)
  have hq3 : salaryQ3 employees = s :=
    quantile_const _ s _ hmapne hallmap (by norm_num)
  have hlb : salaryLowerBound employees = s := by
    rw [salaryLowerBound, hq1, hq3]; ring
  have hub : salaryUpperBound employees = s := by
    rw [salaryUpperBound, hq1, hq3]; ring
  rw [identifySalaryOutliers]
  apply List.filter_eq_self.mpr
  intro e he
  simp [hlb, hub, hall e he]

/-- C10 witness: a two-employee table with equal salaries is returned in
full by the outlier detector. -/
theorem claim_C10_witness :
    identifySalaryOutliers [⟨1, "A", 50000⟩, ⟨2, "B", 50000⟩]
      = [⟨1, "A", 50000⟩, ⟨2, "B", 50000⟩] :=
  claim_C10 [⟨1, "A", 50000⟩, ⟨2, "B", 50000⟩] 50000 (by decide) (by decide)

end CompanyAnalysis
